import Mathlib

/-!
Verification of `generate_query` from `src/_notebooks/resources/config.py`
(the spec's `build_query_url`).

The Python source is:

```
def generate_query(endpoint_url, query, limit):
    raw_query = (f"{endpoint_url}?$query="
                 f"{query}%20"
                 f"limit {limit}"
                )
    # get rid of control characters
    for replacements in ((" ", "%20"), ("\n", "%20")):
        raw_query = raw_query.replace(*replacements)
    return raw_query
```

Strings are embedded as `List Char`.  Python's `str.replace` with a
single-character pattern is embedded as `replaceChar` (for a one-character
pattern, left-to-right non-overlapping substring replacement is exactly
character-wise replacement).  Python's `str(limit)` for an integer is the
usual signed decimal rendering, embedded as `intStr` via Lean's own decimal
printer `Nat.toDigits`; the lemma `intStr_eq_toString` checks that this
agrees with Lean's `toString` on `Int`.
-/

/-- Replace every occurrence of the character `old` in `s` by the string
`rep`.  This is Python's `s.replace(old, rep)` for a one-character `old`. -/
def replaceChar (old : Char) (rep : List Char) : List Char → List Char
  | [] => []
  | c :: cs => (if c = old then rep else [c]) ++ replaceChar old rep cs

/-- Signed decimal rendering of an integer, as Python's `str` produces for
an `int` (and Lean's `toString` for an `Int`). -/
def intStr : Int → List Char
  | Int.ofNat m => Nat.toDigits 10 m
  | Int.negSucc m => '-' :: Nat.toDigits 10 (m + 1)

/-- Embedding of `generate_query` from `config.py`: assemble the f-string,
then run the `for` loop of `replace` calls over the two pairs
`(" ", "%20")` and `("\n", "%20")`. -/
def generate_query (endpoint_url query : List Char) (limit : Int) : List Char :=
  let raw_query :=
    endpoint_url ++ "?$query=".toList ++ query ++ "%20".toList
      ++ "limit ".toList ++ intStr limit
  [(' ', "%20".toList), ('\n', "%20".toList)].foldl
    (fun s p => replaceChar p.1 p.2 s) raw_query

/-- The substitution step of the spec: replace every space by `%20`, then
every newline by `%20`. -/
def subst (s : List Char) : List Char :=
  replaceChar '\n' "%20".toList (replaceChar ' ' "%20".toList s)

/-- The spec's description of `build_query_url`: assemble
`e + "?$query=" + q + "%20limit " + str(n)` and then apply the two
substitutions to the entire assembled string. -/
def build_query_url_spec (e q : List Char) (n : Int) : List Char :=
  subst (e ++ "?$query=".toList ++ q ++ "%20limit ".toList ++ intStr n)

theorem intStr_eq_toString (i : Int) : intStr i = (toString i).toList := by
  cases i <;> rfl

theorem replaceChar_append (old : Char) (rep s t : List Char) :
    replaceChar old rep (s ++ t) = replaceChar old rep s ++ replaceChar old rep t := by
  induction s with
  | nil => rfl
  | cons c cs ih => simp [replaceChar, ih]

theorem replaceChar_of_not_mem (old : Char) (rep : List Char) {s : List Char}
    (h : old ∉ s) : replaceChar old rep s = s := by
  induction s with
  | nil => rfl
  | cons c cs ih =>
    simp only [List.mem_cons, not_or] at h
    have hc : ¬ c = old := fun hc => h.1 hc.symm
    simp [replaceChar, hc, ih h.2]

theorem mem_replaceChar {a old : Char} {rep s : List Char}
    (h : a ∈ replaceChar old rep s) : a ∈ rep ∨ (a ∈ s ∧ a ≠ old) := by
  induction s with
  | nil => simp [replaceChar] at h
  | cons c cs ih =>
    simp only [replaceChar, List.mem_append] at h
    rcases h with h | h
    · by_cases hc : c = old
      · rw [if_pos hc] at h
        exact Or.inl h
      · rw [if_neg hc] at h
        rw [List.mem_singleton] at h
        subst h
        exact Or.inr ⟨List.mem_cons_self _ _, hc⟩
    · rcases ih h with h' | ⟨h1, h2⟩
      · exact Or.inl h'
      · exact Or.inr ⟨List.mem_cons_of_mem _ h1, h2⟩

theorem subst_append (s t : List Char) : subst (s ++ t) = subst s ++ subst t := by
  simp [subst, replaceChar_append]

theorem subst_cons (c : Char) (s : List Char) : subst (c :: s) = subst [c] ++ subst s := by
  have := subst_append [c] s
  simpa using this

theorem subst_of_not_mem {s : List Char} (h1 : ' ' ∉ s) (h2 : '\n' ∉ s) : subst s = s := by
  rw [subst, replaceChar_of_not_mem _ _ h1, replaceChar_of_not_mem _ _ h2]

theorem not_mem_subst (s : List Char) : ' ' ∉ subst s ∧ '\n' ∉ subst s := by
  constructor
  · intro h
    rcases mem_replaceChar h with h | ⟨h, _⟩
    · exact absurd h (by decide)
    · rcases mem_replaceChar h with h' | ⟨_, h2⟩
      · exact absurd h' (by decide)
      · exact h2 rfl
  · intro h
    rcases mem_replaceChar h with h | ⟨_, h2⟩
    · exact absurd h (by decide)
    · exact h2 rfl

theorem subst_subst (s : List Char) : subst (subst s) = subst s :=
  subst_of_not_mem (not_mem_subst s).1 (not_mem_subst s).2

theorem digitChar_ne (n : Nat) : Nat.digitChar n ≠ ' ' ∧ Nat.digitChar n ≠ '\n' := by
  by_cases h : n < 16
  · interval_cases n <;> exact ⟨by decide, by decide⟩
  · unfold Nat.digitChar
    rw [if_neg (show ¬ n = 0 by omega), if_neg (show ¬ n = 1 by omega),
      if_neg (show ¬ n = 2 by omega), if_neg (show ¬ n = 3 by omega),
      if_neg (show ¬ n = 4 by omega), if_neg (show ¬ n = 5 by omega),
      if_neg (show ¬ n = 6 by omega), if_neg (show ¬ n = 7 by omega),
      if_neg (show ¬ n = 8 by omega), if_neg (show ¬ n = 9 by omega),
      if_neg (show ¬ n = 10 by omega), if_neg (show ¬ n = 11 by omega),
      if_neg (show ¬ n = 12 by omega), if_neg (show ¬ n = 13 by omega),
      if_neg (show ¬ n = 14 by omega), if_neg (show ¬ n = 15 by omega)]
    exact ⟨by decide, by decide⟩

theorem toDigitsCore_mem (b fuel : Nat) :
    ∀ (n : Nat) (acc : List Char), ∀ c ∈ Nat.toDigitsCore b fuel n acc,
      c ∈ acc ∨ (c ≠ ' ' ∧ c ≠ '\n') := by
  induction fuel with
  | zero => intro n acc c h; exact Or.inl h
  | succ fuel ih =>
    intro n acc c h
    simp only [Nat.toDigitsCore] at h
    by_cases hz : n / b = 0
    · rw [if_pos hz] at h
      rcases List.mem_cons.mp h with h | h
      · subst h; exact Or.inr (digitChar_ne _)
      · exact Or.inl h
    · rw [if_neg hz] at h
      rcases ih _ _ c h with h | h
      · rcases List.mem_cons.mp h with h | h
        · subst h; exact Or.inr (digitChar_ne _)
        · exact Or.inl h
      · exact Or.inr h

theorem intStr_mem (i : Int) : ∀ c ∈ intStr i, c ≠ ' ' ∧ c ≠ '\n' := by
  intro c h
  cases i with
  | ofNat m =>
    simp only [intStr, Nat.toDigits] at h
    rcases toDigitsCore_mem 10 (m + 1) m [] c h with h' | h'
    · exact absurd h' (List.not_mem_nil c)
    · exact h'
  | negSucc m =>
    simp only [intStr, Nat.toDigits] at h
    rcases List.mem_cons.mp h with h' | h'
    · subst h'; exact ⟨by decide, by decide⟩
    · rcases toDigitsCore_mem 10 (m + 2) (m + 1) [] c h' with h'' | h''
      · exact absurd h'' (List.not_mem_nil c)
      · exact h''

theorem subst_intStr (n : Int) : subst (intStr n) = intStr n :=
  subst_of_not_mem (fun h => ((intStr_mem n) _ h).1 rfl)
    (fun h => ((intStr_mem n) _ h).2 rfl)

theorem generate_query_eq_subst_raw (e q : List Char) (n : Int) :
    generate_query e q n
      = subst (e ++ "?$query=".toList ++ q ++ "%20limit ".toList ++ intStr n) := by
  have hB : "%20".toList ++ "limit ".toList = "%20limit ".toList := by decide
  simp only [generate_query, List.foldl, subst, List.append_assoc, ← hB]

theorem filter_sublist_replaceChar (p : Char → Bool) (o : Char) (rep : List Char)
    (h : p o = false) :
    ∀ s : List Char, List.Sublist (s.filter p) (replaceChar o rep s) := by
  intro s
  induction s with
  | nil => simp [replaceChar]
  | cons c cs ih =>
    rw [replaceChar]
    by_cases hc : c = o
    · rw [if_pos hc]
      have hpc : p c = false := by rw [hc]; exact h
      have hf : List.filter p (c :: cs) = List.filter p cs := by
        simp [List.filter_cons, hpc]
      rw [hf]
      exact ih.trans (List.sublist_append_right _ _)
    · rw [if_neg hc, List.singleton_append]
      by_cases hp : p c = true
      · rw [List.filter_cons_of_pos hp]
        exact ih.cons₂ c
      · rw [List.filter_cons_of_neg (by simpa using hp)]
        exact ih.cons c

theorem filter_ne_sublist_subst (s : List Char) :
    List.Sublist (s.filter (fun c => !(c == ' ') && !(c == '\n'))) (subst s) := by
  have h1 : List.Sublist (s.filter (fun c => !(c == ' ') && !(c == '\n')))
      (replaceChar ' ' "%20".toList s) :=
    filter_sublist_replaceChar (fun c => !(c == ' ') && !(c == '\n')) ' '
      "%20".toList (by decide) s
  have h2 := h1.filter (fun c => !(c == ' ') && !(c == '\n'))
  rw [List.filter_filter] at h2
  simp only [Bool.and_self] at h2
  have h3 := filter_sublist_replaceChar (fun c => !(c == ' ') && !(c == '\n')) '\n'
    "%20".toList (by decide) (replaceChar ' ' "%20".toList s)
  exact h2.trans h3

theorem subst_map_newline (q : List Char) :
    subst (q.map fun c => if c = '\n' then ' ' else c) = subst q := by
  induction q with
  | nil => rfl
  | cons c cs ih =>
    have e1 : (c :: cs) = [c] ++ cs := rfl
    have e2 : ((if c = '\n' then ' ' else c) ::
          List.map (fun c => if c = '\n' then ' ' else c) cs)
        = [if c = '\n' then ' ' else c]
          ++ List.map (fun c => if c = '\n' then ' ' else c) cs := rfl
    rw [List.map_cons, e2, subst_append, e1, subst_append, ih]
    congr 1
    by_cases hc : c = '\n'
    · rw [hc]
      decide
    · rw [if_neg hc]

/-- Claim C1: for every endpoint_base `e`, query_fragment `q` and integer
row_limit `n`, `build_query_url(e, q, n)` returns the string obtained by first
assembling `e + "?$query=" + q + "%20limit " + str(n)` and then, over that
entire assembled string, replacing every literal space with `%20` and
afterwards replacing every literal newline with `%20`. -/
theorem claim1_assemble_then_substitute (e q : List Char) (n : Int) :
    generate_query e q n = build_query_url_spec e q n := by
  rw [generate_query_eq_subst_raw, build_query_url_spec]

/-- Claim C2 is false on the code: at `e = "a"`, `q = "b"`, `n = 0` (inputs with
no space or newline and `n ≥ 0`), the output is not
`e + "?$query=" + q + "%20limit " + str(n)`, because the space between
`"limit"` and the number is itself replaced by `%20`. -/
theorem claim2_counterexample :
    (' ' ∉ "a".toList) ∧ ('\n' ∉ "a".toList) ∧ (' ' ∉ "b".toList) ∧ ('\n' ∉ "b".toList)
      ∧ (0 : Int) ≥ 0
      ∧ generate_query "a".toList "b".toList 0 ≠ "a?$query=b%20limit 0".toList := by
  decide

/-- Claim C2 amended: for every `e`, `q` with no space and no newline and every
`n ≥ 0`, `build_query_url(e, q, n)` equals
`e + "?$query=" + q + "%20limit%20" + str(n)` — the space between `"limit"` and
the number is also replaced by `%20`, and no other substitution occurs. -/
theorem claim2_amended_literal_space_also_encoded (e q : List Char) (n : Int)
    (he1 : ' ' ∉ e) (he2 : '\n' ∉ e) (hq1 : ' ' ∉ q) (hq2 : '\n' ∉ q) (_hn : 0 ≤ n) :
    generate_query e q n
      = e ++ "?$query=".toList ++ q ++ "%20limit%20".toList ++ intStr n := by
  rw [generate_query_eq_subst_raw]
  rw [subst_append, subst_append, subst_append, subst_append]
  rw [subst_of_not_mem he1 he2, subst_of_not_mem hq1 hq2, subst_intStr]
  have h1 : subst "?$query=".toList = "?$query=".toList := by decide
  have h2 : subst "%20limit ".toList = "%20limit%20".toList := by decide
  rw [h1, h2]

/-- Witness for the amended claim C2, at `e = "https://x"`, `q = "sel"`, `n = 7`. -/
theorem claim2_amended_witness :
    generate_query "https://x".toList "sel".toList 7
      = "https://x".toList ++ "?$query=".toList ++ "sel".toList
        ++ "%20limit%20".toList ++ intStr 7 :=
  claim2_amended_literal_space_also_encoded _ _ _
    (by decide) (by decide) (by decide) (by decide) (by decide)

/-- Claim C3 is false on the code: the example output keeps a literal space
before `10`, but the code replaces it with `%20`. -/
theorem claim3_counterexample :
    generate_query "https://example.org/resource".toList "SELECT *".toList 10
      ≠ "https://example.org/resource?$query=SELECT%20*%20limit 10".toList := by
  decide

/-- Claim C3 amended: `build_query_url("https://example.org/resource",
"SELECT *", 10)` returns exactly
`"https://example.org/resource?$query=SELECT%20*%20limit%2010"`. -/
theorem claim3_amended_concrete_output :
    generate_query "https://example.org/resource".toList "SELECT *".toList 10
      = "https://example.org/resource?$query=SELECT%20*%20limit%2010".toList := by
  decide

/-- Claim C4 is false on the code: the example output keeps a literal space
before `5`, but the code replaces it with `%20`. -/
theorem claim4_counterexample :
    generate_query "https://example.org/resource".toList "a b\nc".toList 5
      ≠ "https://example.org/resource?$query=a%20b%20c%20limit 5".toList := by
  decide

/-- Claim C4 amended: `build_query_url("https://example.org/resource",
"a b\nc", 5)` returns exactly
`"https://example.org/resource?$query=a%20b%20c%20limit%205"`. -/
theorem claim4_amended_concrete_output :
    generate_query "https://example.org/resource".toList "a b\nc".toList 5
      = "https://example.org/resource?$query=a%20b%20c%20limit%205".toList := by
  decide

/-- Claim C5: every space and newline of the assembled string is replaced, so
for every input triple the returned string contains no literal space and no
literal newline character. -/
theorem claim5_output_has_no_space_or_newline (e q : List Char) (n : Int) :
    ' ' ∉ generate_query e q n ∧ '\n' ∉ generate_query e q n := by
  rw [generate_query_eq_subst_raw]
  exact not_mem_subst _

/-- Claim C6: the substitution step (space then newline, each to `%20`) is
idempotent on every string, and in particular applying it a second time to the
output of `build_query_url` leaves that output unchanged. -/
theorem claim6_substitution_idempotent :
    (∀ s : List Char, subst (subst s) = subst s)
      ∧ ∀ (e q : List Char) (n : Int),
        subst (generate_query e q n) = generate_query e q n := by
  refine ⟨subst_subst, ?_⟩
  intro e q n
  rw [generate_query_eq_subst_raw, subst_subst]

/-- Claim C7: characters of `e` and `q` other than space and newline pass
through unescaped — they appear verbatim and in the same relative order in the
returned string (the filtered concatenation of `e` and `q` is a sublist of the
output). -/
theorem claim7_other_chars_pass_through (e q : List Char) (n : Int) :
    List.Sublist ((e ++ q).filter (fun c => !(c == ' ') && !(c == '\n')))
      (generate_query e q n) := by
  rw [generate_query_eq_subst_raw]
  simp only [List.append_assoc, subst_append, List.filter_append]
  refine List.Sublist.append (filter_ne_sublist_subst e) ?_
  exact ((filter_ne_sublist_subst q).trans (List.sublist_append_left _ _)).trans
    (List.sublist_append_right _ _)

/-- Claim C8: `build_query_url` is deterministic — two calls with identical
inputs return identical strings; the output depends on nothing but the three
inputs. -/
theorem claim8_deterministic (e q e' q' : List Char) (n n' : Int)
    (he : e = e') (hq : q = q') (hn : n = n') :
    generate_query e q n = generate_query e' q' n' := by
  rw [he, hq, hn]

/-- Witness for claim C8, at `e = "u"`, `q = "v"`, `n = 3`. -/
theorem claim8_witness :
    generate_query "u".toList "v".toList 3 = generate_query "u".toList "v".toList 3 :=
  claim8_deterministic _ _ _ _ _ _ rfl rfl rfl

/-- Claim C9: `build_query_url` is total — for every endpoint_base, query
fragment and integer row_limit it returns a string (the embedded function is
total, with no error branch). -/
theorem claim9_total (e q : List Char) (n : Int) :
    ∃ s : List Char, generate_query e q n = s :=
  ⟨generate_query e q n, rfl⟩

/-- Claim C10: the encoding collapses spaces and newlines, so replacing every
newline of the query fragment by a space does not change the output; in
particular `build_query_url` is not injective in its query argument. -/
theorem claim10_newline_space_collapse (e : List Char) (n : Int) (q : List Char) :
    generate_query e (q.map fun c => if c = '\n' then ' ' else c) n
      = generate_query e q n := by
  rw [generate_query_eq_subst_raw, generate_query_eq_subst_raw]
  simp only [List.append_assoc, subst_append]
  rw [subst_map_newline]
